import Mathlib

/-!
Shallow embedding of the go-context demo server (packages `demo` and
`process` plus `main`), centred on Go's `context` package semantics as the
repository uses them.

Time is modelled as an integer number of seconds on a single completed
timeline: every cancellation source is recorded as the absolute time at
which it fires (`Option Int`, `none` = never).  A context node carries its
construction (`Background`, `WithCancel`, `WithTimeout`/`WithDeadline`,
`WithValue`) and the firing times of its explicit cancel calls; `ctxReason`
computes when the node's done channel closes and which error (`Canceled` or
`DeadlineExceeded`) `Err()` then reports, mirroring Go's rules: a child
fires with the earliest of its parent's firing, its own cancel call, and
its own deadline, and the earliest source determines the reason (on an
exact tie the explicit/parent cancellation is preferred, matching Go's
creation-order check; racing ties in Go are otherwise scheduler-dependent
and no claim below depends on this corner).

`select2` embeds a two-way Go `select`: each arm is the time at which it
becomes ready, the earlier arm wins, and a `Pick` oracle stands for the Go
runtime's arbitrary choice when both arms are ready in the same step.
Handlers return `Option Response`, `none` meaning the handler blocks
forever and never writes a response.
-/

/-- Go context error values: `context.Canceled` and `context.DeadlineExceeded`. -/
inductive Reason where
  | canceled
  | deadlineExceeded
deriving DecidableEq

/-- The branch a `select` resumes on; also the oracle for the runtime's
arbitrary choice when several cases are ready simultaneously. -/
inductive Pick where
  | left
  | right
deriving DecidableEq

/-- A two-way `select`: each side is the absolute time its case becomes
ready (`none` = never).  The strictly earlier side wins; an exact tie is
resolved by the runtime's arbitrary choice `tie`.  Returns the chosen side
and the time the select resumes, or `none` if neither case ever fires. -/
def select2 (l r : Option Int) (tie : Pick) : Option (Pick × Int) :=
  match l, r with
  | none, none => none
  | some tl, none => some (Pick.left, tl)
  | none, some tr => some (Pick.right, tr)
  | some tl, some tr =>
    if tl < tr then some (Pick.left, tl)
    else if tr < tl then some (Pick.right, tr)
    else some (tie, tl)

/-- Context tree node, as built by the repository: `context.Background()`,
`context.WithCancel(parent)` (with the absolute time its cancel function is
invoked, `none` if never), `context.WithDeadline`/`WithTimeout` (same, plus
the absolute deadline), and `context.WithValue`. -/
inductive Ctx where
  | background
  | withCancel (parent : Ctx) (cancelAt : Option Int)
  | withDeadline (parent : Ctx) (cancelAt : Option Int) (deadline : Int)
  | withValue (parent : Ctx) (key value : String)
deriving DecidableEq

/-- Merge a parent's firing (time, reason) with an explicit cancel call:
whichever fires first sets the reason; an explicit cancel after (or tied
with) the parent's firing is a no-op, as in Go's idempotent `cancel`. -/
def combineCancel (pr : Option (Int × Reason)) (c : Option Int) :
    Option (Int × Reason) :=
  match pr, c with
  | none, none => none
  | none, some tc => some (tc, Reason.canceled)
  | some b, none => some b
  | some b, some tc => if tc < b.1 then some (tc, Reason.canceled) else some b

/-- Impose a deadline on a node that otherwise fires as `base`: the timer
fires at `d` with `DeadlineExceeded` unless a cancellation fired no later. -/
def applyDeadline (base : Option (Int × Reason)) (d : Int) : Int × Reason :=
  match base with
  | none => (d, Reason.deadlineExceeded)
  | some b => if d < b.1 then (d, Reason.deadlineExceeded) else b

/-- When a context's done channel closes and which error `Err()` reports
from then on (`none` = the done channel never closes). -/
def ctxReason : Ctx → Option (Int × Reason)
  | Ctx.background => none
  | Ctx.withCancel p c => combineCancel (ctxReason p) c
  | Ctx.withDeadline p c d => some (applyDeadline (combineCancel (ctxReason p) c) d)
  | Ctx.withValue p _ _ => ctxReason p

/-- The absolute time a context's done channel closes (`none` = never). -/
def doneAt (c : Ctx) : Option Int :=
  (ctxReason c).map Prod.fst

/-- The error `ctx.Err()` reports once the done channel has closed. -/
def ctxErr (c : Ctx) : Option Reason :=
  (ctxReason c).map Prod.snd

/-- `err.Error()` strings of the two context errors. -/
def errString (e : Option Reason) : String :=
  match e with
  | some Reason.canceled => "context canceled"
  | some Reason.deadlineExceeded => "context deadline exceeded"
  | none => ""

/-- A context built with no deadline anywhere and no cancel call ever
(`Background` plus `WithCancel`-never-invoked and `WithValue` wrappers). -/
def noCancelNoDeadline : Ctx → Bool
  | Ctx.background => true
  | Ctx.withCancel p none => noCancelNoDeadline p
  | Ctx.withCancel _ (some _) => false
  | Ctx.withDeadline _ _ _ => false
  | Ctx.withValue p _ _ => noCancelNoDeadline p

/-- The JSON reply a handler writes: HTTP status plus the discriminating
body fields (`error`, `message`, and the result/identifier payload). -/
structure Response where
  status : Nat
  error : Option String
  message : String
  body : Option String
deriving DecidableEq

/-! ## demo.ProcessHandler (src/demo/handler.go, lines 43-110) -/

/-- Shared 400 reply for an unparsable `timeout` query parameter. -/
def invalidTimeoutResp : Response :=
  { status := 400, error := some "Invalid timeout format",
    message := "Timeout should be in the format of 1s, 500ms, etc.", body := none }

/-- demo success reply: 200 with the worker's result `sleepTime = "5s"`. -/
def demoSuccessResp : Response :=
  { status := 200, error := none, message := "Process completed successfully",
    body := some "5s" }

/-- demo timeout reply: 408 `StatusRequestTimeout`. -/
def demoTimeoutResp : Response :=
  { status := 408, error := some "timeout", message := "Process timed out",
    body := none }

/-- demo canceled reply: 504 `StatusGatewayTimeout`. -/
def demoCanceledResp : Response :=
  { status := 504, error := some "canceled", message := "Request was canceled",
    body := none }

/-- `context.WithTimeout(parent, d)` taken at absolute time `now`. -/
def timeoutCtx (parent : Ctx) (now d : Int) : Ctx :=
  Ctx.withDeadline parent none (now + d)

/-- The demo worker goroutine: `select` on `ctx.Done()` versus
`time.After(5s)`; it sends on `resultChan` (at time `now + 5`) only if the
timer case wins, and returns silently otherwise.  Result: the time at
which `resultChan` becomes ready, `none` if it never does. -/
def demoWorkReady (parent : Ctx) (now d : Int) (wt : Pick) : Option Int :=
  match select2 (doneAt (timeoutCtx parent now d)) (some (now + 5)) wt with
  | some (Pick.right, t) => some t
  | _ => none

/-- The demo handler's `ctx.Done()` branch: 408 on `DeadlineExceeded`,
504 otherwise. -/
def demoDoneResp (e : Option Reason) : Response :=
  if e = some Reason.deadlineExceeded then demoTimeoutResp else demoCanceledResp

/-- `demo.ProcessHandler`: parse the timeout (`timeout = none` models an
unparsable string, `some d` the parsed duration), derive
`WithTimeout(request ctx, d)`, spawn the worker, then `select` on
`resultChan` versus `ctx.Done()`.  `wt`/`ot` are the runtime's tie choices
for the worker's and the handler's `select`. -/
def demoProcessHandler (parent : Ctx) (now : Int) (timeout : Option Int)
    (wt ot : Pick) : Option Response :=
  match timeout with
  | none => some invalidTimeoutResp
  | some d =>
    match select2 (demoWorkReady parent now d wt) (doneAt (timeoutCtx parent now d)) ot with
    | some (Pick.left, _) => some demoSuccessResp
    | some (Pick.right, _) => some (demoDoneResp (ctxErr (timeoutCtx parent now d)))
    | none => none

/-! ## process.ProcessHandler (src/unnamed/part_002) -/

/-- process-package success reply: 200 with `processed: true`. -/
def procSuccessResp : Response :=
  { status := 200, error := none, message := "Processing completed successfully",
    body := some "processed" }

/-- process-package timeout reply: 504 `StatusGatewayTimeout`. -/
def procTimeoutResp : Response :=
  { status := 504, error := some "Request timed out",
    message := "The operation took longer than the specified timeout", body := none }

/-- process-package canceled reply: 500 with `err.Error()` as message. -/
def procCanceledResp (e : String) : Response :=
  { status := 500, error := some "Request cancelled", message := e, body := none }

/-- The process-package handler's `ctx.Done()` branch: 504 on
`DeadlineExceeded`, 500 with `err.Error()` otherwise. -/
def procDoneResp (e : Option Reason) : Response :=
  if e = some Reason.deadlineExceeded then procTimeoutResp
  else procCanceledResp (errString e)

/-- The process-package worker: `time.Sleep(5s)` then an unconditional
send on the unbuffered `done` channel — it never observes the context, so
its send becomes ready at `now + 5` regardless of the context's state. -/
def procWorkerSendAt (now : Int) : Option Int :=
  some (now + 5)

/-- `process.ProcessHandler`: like the demo handler but the worker sends
unconditionally on an unbuffered channel.  Besides the reply, the second
component records whether the worker goroutine terminates: the unbuffered
send completes only if the handler's `select` takes the `done` branch;
if the handler exits through the `ctx.Done()` branch no receiver remains
and the worker blocks on the send forever (`false`). -/
def procProcessHandler (parent : Ctx) (now : Int) (timeout : Option Int)
    (ot : Pick) : Option Response × Bool :=
  match timeout with
  | none => (some invalidTimeoutResp, true)
  | some d =>
    match select2 (procWorkerSendAt now) (doneAt (timeoutCtx parent now d)) ot with
    | some (Pick.left, _) => (some procSuccessResp, true)
    | some (Pick.right, _) => (some (procDoneResp (ctxErr (timeoutCtx parent now d))), false)
    | none => (none, false)

/-! ## demo.DemoParentCancellation (src/demo/handler.go, lines 115-176) -/

/-- The trigger delay `time.Duration(1+rand.Intn(3)) * time.Second`
applied to the random draw `n`. -/
def demoTriggerTime (n : Nat) : Int :=
  1 + (n % 3 : Nat)

/-- The parent-cancellation demo's 500 reply, carrying `err.Error()` and a
message that distinguishes `context.Canceled`. -/
def demoParentErrResp (e : Option Reason) : Response :=
  { status := 500, error := some (errString e),
    message := if e = some Reason.canceled then "Process was canceled by parent context"
               else "Process failed",
    body := none }

/-- `demo.DemoParentCancellation`: a parent `WithCancel(Background)` whose
cancel fires at `now + trigger`, a child `WithTimeout(parent, 10s)`, and a
worker that selects `childCtx.Done()` (sending `childCtx.Err()` on
`errChan`) against `time.After(5s)` (sending on `resultChan`).  The worker
sends on exactly one of the two channels, so the handler's outer `select`
receives whichever one that is. -/
def demoParentCancellation (now trigger : Int) (wt : Pick) : Option Response :=
  let parentCtx := Ctx.withCancel Ctx.background (some (now + trigger))
  let childCtx := Ctx.withDeadline parentCtx none (now + 10)
  match select2 (doneAt childCtx) (some (now + 5)) wt with
  | some (Pick.left, _) => some (demoParentErrResp (ctxErr childCtx))
  | some (Pick.right, _) => some demoSuccessResp
  | none => none

/-! ## LockResponse and the never-respond handlers
(src/unnamed/part_000 and src/demo/handler.go, lines 180-212) -/

/-- `onlyReturnWhenContextCancelled`: a bare `select` on `ctx.Done()`; it
returns exactly when the done channel closes (`none` = blocks forever). -/
def onlyReturnWhenContextCancelled (c : Ctx) : Option Int :=
  doneAt c

/-- `LockResponse`: prints, then (via `defer`) blocks in
`onlyReturnWhenContextCancelled` until the context's done channel closes.
Result: the time at which `LockResponse` returns. -/
def LockResponse (c : Ctx) : Option Int :=
  onlyReturnWhenContextCancelled c

/-- The plain 200 reply both never-respond handlers would write. -/
def plainSuccessResp : Response :=
  { status := 200, error := none, message := "Process completed successfully",
    body := none }

/-- `demo.NeverRespondWithTimeoutContextHandler`: derive
`WithTimeout(request ctx, 2s)`, call `LockResponse`, then reply 200. -/
def NeverRespondWithTimeoutContextHandler (parent : Ctx) (now : Int) :
    Option Response :=
  match LockResponse (timeoutCtx parent now 2) with
  | some _ => some plainSuccessResp
  | none => none

/-- `demo.NeverRespondWithGoContextHandler`: call `LockResponse` on
`context.Background()`, then reply 200 — reached only if `LockResponse`
ever returns. -/
def NeverRespondWithGoContextHandler : Option Response :=
  match LockResponse Ctx.background with
  | some _ => some plainSuccessResp
  | none => none

/-! ## activeRequests registry and demo.CancelHandler
(src/demo/handler.go, lines 14-37) -/

/-- The `activeRequests` store: request identifier to the registered cancel
function, a cancel function being modelled by the slot it controls — the
absolute time it has been invoked at (`none` = not yet invoked). -/
abbrev Registry : Type :=
  List (String × Option Int)

/-- `sync.Map.Load`: first entry under the given key, if any. -/
def lookupReg : Registry → String → Option (Option Int)
  | [], _ => none
  | (k, v) :: rest, id => if k = id then some v else lookupReg rest id

/-- Invoking a `context.CancelFunc` at time `t`: fires the cancellation
now unless it already fired (idempotent). -/
def invokeCancel (slot : Option Int) (t : Int) : Option Int :=
  match slot with
  | none => some t
  | some t0 => some t0

/-- `CancelHandler`'s 200 reply, carrying the request identifier. -/
def cancelFoundResp (requestID : String) : Response :=
  { status := 200, error := none, message := "Request canceled",
    body := some requestID }

/-- `CancelHandler`'s 404 reply for an unregistered identifier. -/
def cancelNotFoundResp (requestID : String) : Response :=
  { status := 404, error := some "Request not found", message := "",
    body := some requestID }

/-- Record, in the registry view, the effect of invoking the cancel
function stored under `id` at time `t`: the slots registered under `id`
are fired (idempotently); every other entry is untouched. -/
def fireSlot : Registry → String → Int → Registry
  | [], _, _ => []
  | (k, v) :: rest, id, t =>
    if k = id then (k, invokeCancel v t) :: fireSlot rest id t
    else (k, v) :: fireSlot rest id t

/-- `demo.CancelHandler` at time `t`: `activeRequests.Load(requestID)`; if
found, call the cancel function and reply 200, else reply 404.  Returns
the reply and the registry afterwards (the handler never stores or
deletes entries; a found entry's slot reflects the invoked cancel). -/
def CancelHandler (reg : Registry) (requestID : String) (t : Int) :
    Response × Registry :=
  match lookupReg reg requestID with
  | some _ => (cancelFoundResp requestID, fireSlot reg requestID t)
  | none => (cancelNotFoundResp requestID, reg)

/-- `demo.ProcessHandler` with the `activeRequests` registry threaded
through every exit path: the handler's body never calls
`activeRequests.Store` or `activeRequests.Delete`, so the registry it
leaves behind on each path is the one it was given. -/
def demoProcessHandlerReg (reg : Registry) (parent : Ctx) (now : Int)
    (timeout : Option Int) (wt ot : Pick) : Option Response × Registry :=
  match timeout with
  | none => (some invalidTimeoutResp, reg)
  | some d =>
    match select2 (demoWorkReady parent now d wt) (doneAt (timeoutCtx parent now d)) ot with
    | some (Pick.left, _) => (some demoSuccessResp, reg)
    | some (Pick.right, _) => (some (demoDoneResp (ctxErr (timeoutCtx parent now d))), reg)
    | none => (none, reg)

/-! ## demo.ClientCancellationMiddleware (src/demo/middleware.go, lines 30-49) -/

/-- The inbound request context handed to the middleware, fired by the
transport when the client disconnects (`none` = never). -/
def externalCtx (extDoneAt : Option Int) : Ctx :=
  Ctx.withCancel Ctx.background extDoneAt

/-- Observable outcome of one middleware run: when the derived context's
done channel closes, and when the watcher goroutine returns. -/
structure MiddlewareRun where
  ctxDoneAt : Option Int
  watcherTerminatesAt : Option Int
deriving DecidableEq

/-- `demo.ClientCancellationMiddleware` for one request: derive
`ctx, cancel := WithCancel(request ctx)` with `defer cancel()` running
when the handler chain returns at `handlerReturnsAt`; replace the request
context by `ctx`; spawn a watcher goroutine that selects on
`c.Request.Context().Done()` — which is the replaced `ctx` — and then
calls `cancel()` (a no-op, `ctx` being already done) and returns.  The
external disconnect reaches `ctx` through `WithCancel`'s own parent
propagation. -/
def ClientCancellationMiddleware (extDoneAt : Option Int)
    (handlerReturnsAt : Int) : MiddlewareRun :=
  let ctx := Ctx.withCancel (externalCtx extDoneAt) (some handlerReturnsAt)
  { ctxDoneAt := doneAt ctx, watcherTerminatesAt := doneAt ctx }

/-! ## Basic lemmas about the context model -/

theorem ctxReason_eq_none_of_doneAt (c : Ctx) (h : doneAt c = none) :
    ctxReason c = none := by
  unfold doneAt at h
  cases hr : ctxReason c with
  | none => rfl
  | some b => rw [hr] at h; simp at h

theorem applyDeadline_fst_le (b : Option (Int × Reason)) (d : Int) :
    (applyDeadline b d).1 ≤ d := by
  unfold applyDeadline
  cases b with
  | none => simp
  | some pr =>
    dsimp only
    split
    · simp
    · omega

theorem timeoutCtx_doneAt_some (p : Ctx) (now d : Int) :
    ∃ t, doneAt (timeoutCtx p now d) = some t ∧ t ≤ now + d := by
  refine ⟨(applyDeadline (combineCancel (ctxReason p) none) (now + d)).1, ?_,
    applyDeadline_fst_le _ _⟩
  simp [doneAt, timeoutCtx, ctxReason]

theorem noCancelNoDeadline_ctxReason (c : Ctx)
    (h : noCancelNoDeadline c = true) : ctxReason c = none := by
  induction c with
  | background => rfl
  | withCancel p ca ih =>
    cases ca with
    | none =>
      rw [noCancelNoDeadline] at h
      simp [ctxReason, ih h, combineCancel]
    | some t => simp [noCancelNoDeadline] at h
  | withDeadline p ca d ih => simp [noCancelNoDeadline] at h
  | withValue p k v ih =>
    rw [noCancelNoDeadline] at h
    simp [ctxReason, ih h]

/-! ## Claim theorems -/

/-- Claim C8: a context with no deadline and no cancel call never fires on
its own; `NeverRespondWithGoContextHandler`, which waits on
`context.Background()`'s done channel inside `LockResponse`, blocks
forever and never writes its success response. -/
theorem background_never_fires :
    (∀ c : Ctx, noCancelNoDeadline c = true → doneAt c = none)
    ∧ doneAt Ctx.background = none
    ∧ LockResponse Ctx.background = none
    ∧ NeverRespondWithGoContextHandler = none := by
  refine ⟨?_, rfl, rfl, rfl⟩
  intro c h
  simp [doneAt, noCancelNoDeadline_ctxReason c h]

/-- Witness for C8 at a concrete value-only context. -/
theorem background_never_fires_witness :
    doneAt (Ctx.withValue (Ctx.withCancel Ctx.background none) "requestID" "r")
      = none :=
  background_never_fires.1 _ rfl

/-- Claim C10: `NeverRespondWithTimeoutContextHandler` always responds:
`LockResponse` returns once the 2-second-deadline context fires (no later
than `now + 2`), after which the handler writes the plain 200 success
reply — the deadline expiry acts as a completion gate and is never
reported as an error by this handler. -/
theorem never_respond_timeout_always_responds (parent : Ctx) (now : Int) :
    (∃ t, LockResponse (timeoutCtx parent now 2) = some t ∧ t ≤ now + 2)
    ∧ NeverRespondWithTimeoutContextHandler parent now = some plainSuccessResp
    ∧ plainSuccessResp.status = 200 ∧ plainSuccessResp.error = none := by
  obtain ⟨t, ht, hle⟩ := timeoutCtx_doneAt_some parent now 2
  have hl : LockResponse (timeoutCtx parent now 2) = some t := ht
  refine ⟨⟨t, hl, hle⟩, ?_, rfl, rfl⟩
  unfold NeverRespondWithTimeoutContextHandler
  rw [hl]

/-- Claim C7: a context whose deadline is already in the past (timeout
duration `d ≤ 0`, live parent) fires immediately — at `now + d ≤ now` —
with `DeadlineExceeded`, so both process handlers take the `ctx.Done()`
branch and report a timeout without waiting for the 5-second work. -/
theorem past_deadline_fires_immediately (parent : Ctx) (now d : Int)
    (wt ot : Pick) (hlive : doneAt parent = none) (hd : d ≤ 0) :
    doneAt (timeoutCtx parent now d) = some (now + d)
    ∧ now + d ≤ now
    ∧ ctxErr (timeoutCtx parent now d) = some Reason.deadlineExceeded
    ∧ demoProcessHandler parent now (some d) wt ot = some demoTimeoutResp
    ∧ (procProcessHandler parent now (some d) ot).1 = some procTimeoutResp := by
  have hpr : ctxReason parent = none := ctxReason_eq_none_of_doneAt parent hlive
  have hcr : ctxReason (timeoutCtx parent now d)
      = some (now + d, Reason.deadlineExceeded) := by
    simp [timeoutCtx, ctxReason, hpr, combineCancel, applyDeadline]
  have hdone : doneAt (timeoutCtx parent now d) = some (now + d) := by
    simp [doneAt, hcr]
  have herr : ctxErr (timeoutCtx parent now d) = some Reason.deadlineExceeded := by
    simp [ctxErr, hcr]
  refine ⟨hdone, by omega, herr, ?_, ?_⟩
  · have hw : demoWorkReady parent now d wt = none := by
      unfold demoWorkReady
      rw [hdone]
      simp only [select2]
      rw [if_pos (show now + d < now + 5 by omega)]
    unfold demoProcessHandler
    dsimp only
    rw [hw, hdone]
    simp [select2, demoDoneResp, herr]
  · unfold procProcessHandler procWorkerSendAt
    dsimp only
    rw [hdone]
    simp only [select2]
    rw [if_neg (show ¬ now + 5 < now + d by omega),
      if_pos (show now + d < now + 5 by omega)]
    simp [procDoneResp, herr]

/-- Witness for C7: zero timeout duration on a live background parent
yields the demo timeout reply. -/
theorem past_deadline_fires_immediately_witness :
    demoProcessHandler Ctx.background 0 (some 0) Pick.left Pick.left
      = some demoTimeoutResp :=
  (past_deadline_fires_immediately Ctx.background 0 0 Pick.left Pick.left
    rfl (by decide)).2.2.2.1

/-- Claim C1: in `DemoParentCancellation` (parent canceled at the trigger
time, child with a 10-second deadline, work sleeping 5 seconds), every
trigger time strictly below 5 seconds makes the handler report the child's
cancellation — the 500 reply carrying `context.Canceled` — and never the
success reply; the generated trigger `1 + rand.Intn(3)` always lies in
`[1, 3]`, hence below 5. -/
theorem parent_cancel_child_canceled (now trigger : Int) (wt : Pick)
    (h : trigger < 5) :
    demoParentCancellation now trigger wt
      = some (demoParentErrResp (some Reason.canceled))
    ∧ demoParentErrResp (some Reason.canceled)
      = { status := 500, error := some "context canceled",
          message := "Process was canceled by parent context", body := none }
    ∧ (∀ r, demoParentCancellation now trigger wt = some r →
        r.status ≠ 200 ∧ r ≠ demoSuccessResp)
    ∧ (∀ n : Nat, 1 ≤ demoTriggerTime n ∧ demoTriggerTime n ≤ 3) := by
  have hcr : ctxReason (Ctx.withDeadline
      (Ctx.withCancel Ctx.background (some (now + trigger))) none (now + 10))
      = some (now + trigger, Reason.canceled) := by
    simp only [ctxReason, combineCancel, applyDeadline]
    rw [if_neg (show ¬ now + 10 < (now + trigger, Reason.canceled).1 by
      dsimp only; omega)]
  have hmain : demoParentCancellation now trigger wt
      = some (demoParentErrResp (some Reason.canceled)) := by
    unfold demoParentCancellation
    dsimp only
    rw [show doneAt (Ctx.withDeadline
        (Ctx.withCancel Ctx.background (some (now + trigger))) none (now + 10))
        = some (now + trigger) by simp [doneAt, hcr]]
    simp only [select2]
    rw [if_pos (show now + trigger < now + 5 by omega)]
    rw [show ctxErr (Ctx.withDeadline
        (Ctx.withCancel Ctx.background (some (now + trigger))) none (now + 10))
        = some Reason.canceled by simp [ctxErr, hcr]]
  refine ⟨hmain, by decide, ?_, ?_⟩
  · intro r hr
    rw [hmain] at hr
    obtain rfl : demoParentErrResp (some Reason.canceled) = r :=
      Option.some_injective _ hr
    exact ⟨by decide, by decide⟩
  · intro n
    unfold demoTriggerTime
    omega

/-- Witness for C1 at trigger time 2 seconds. -/
theorem parent_cancel_child_canceled_witness :
    demoParentCancellation 0 2 Pick.left
      = some (demoParentErrResp (some Reason.canceled)) :=
  (parent_cancel_child_canceled 0 2 Pick.left (by decide)).1

/-- Claim C6: for `ClientCancellationMiddleware`, if the inbound
request-scoped done signal fires at time `te` while the request is being
handled (`te ≤ handlerReturnsAt`), the derived context's done channel
closes at that same time; and the watcher goroutine always terminates no
later than the handler's return — it never outlives its request. -/
theorem middleware_propagates_and_watcher_dies (ext : Option Int)
    (handlerReturnsAt : Int) :
    (∀ te, ext = some te → te ≤ handlerReturnsAt →
      (ClientCancellationMiddleware ext handlerReturnsAt).ctxDoneAt = some te)
    ∧ (∃ t, (ClientCancellationMiddleware ext handlerReturnsAt).watcherTerminatesAt
          = some t ∧ t ≤ handlerReturnsAt) := by
  constructor
  · intro te hext hle
    subst hext
    unfold ClientCancellationMiddleware externalCtx
    dsimp only
    simp only [doneAt, ctxReason, combineCancel]
    rw [if_neg (show ¬ handlerReturnsAt < (te, Reason.canceled).1 by
      dsimp only; omega)]
    rfl
  · unfold ClientCancellationMiddleware externalCtx
    dsimp only
    cases ext with
    | none =>
      exact ⟨handlerReturnsAt, by simp [doneAt, ctxReason, combineCancel],
        le_refl handlerReturnsAt⟩
    | some te =>
      by_cases hc : handlerReturnsAt < te
      · refine ⟨handlerReturnsAt, ?_, le_refl handlerReturnsAt⟩
        simp only [doneAt, ctxReason, combineCancel]
        rw [if_pos (show handlerReturnsAt < (te, Reason.canceled).1 from hc)]
        rfl
      · refine ⟨te, ?_, by omega⟩
        simp only [doneAt, ctxReason, combineCancel]
        rw [if_neg (show ¬ handlerReturnsAt < (te, Reason.canceled).1 from hc)]
        rfl

/-- Witness for C6: disconnect at time 1, handler returning at time 5. -/
theorem middleware_propagates_and_watcher_dies_witness :
    (ClientCancellationMiddleware (some 1) 5).ctxDoneAt = some 1
    ∧ (∃ t, (ClientCancellationMiddleware (some 1) 5).watcherTerminatesAt
        = some t ∧ t ≤ 5) :=
  ⟨(middleware_propagates_and_watcher_dies (some 1) 5).1 1 rfl (by decide),
   (middleware_propagates_and_watcher_dies (some 1) 5).2⟩

/-! ## Registry lemmas and claims C5, C4, C9 -/

theorem lookupReg_fireSlot (reg : Registry) (X : String) (t : Int)
    (s : Option Int) (h : lookupReg reg X = some s) :
    lookupReg (fireSlot reg X t) X = some (invokeCancel s t) := by
  induction reg with
  | nil => simp [lookupReg] at h
  | cons hd tl ih =>
    obtain ⟨k, v⟩ := hd
    rw [fireSlot]
    by_cases hk : k = X
    · subst hk
      rw [lookupReg, if_pos rfl] at h
      obtain rfl : v = s := Option.some_injective _ h
      rw [if_pos rfl, lookupReg, if_pos rfl]
    · rw [lookupReg, if_neg hk] at h
      rw [if_neg hk, lookupReg, if_neg hk]
      exact ih h

theorem withCancel_some_fires (p : Ctx) (t : Int) :
    ∃ tf, doneAt (Ctx.withCancel p (some t)) = some tf ∧ tf ≤ t := by
  simp only [doneAt, ctxReason]
  cases hp : ctxReason p with
  | none => exact ⟨t, by simp [combineCancel], le_refl t⟩
  | some b =>
    by_cases hc : t < b.1
    · exact ⟨t, by simp [combineCancel, if_pos hc], le_refl t⟩
    · exact ⟨b.1, by simp [combineCancel, if_neg hc], by omega⟩

/-- Claim C5: lookup-by-identifier cancellation.  If a cancel function is
registered under `X`, `CancelHandler` replies 200 "Request canceled" and
invokes that function, so that afterwards `X`'s slot is fired and any
context hanging off it has a closed done channel; for an unregistered `Y`
it replies 404 "Request not found", leaves every registry entry untouched
and invokes no cancel function (so no context changes). -/
theorem cancel_by_id (reg : Registry) (X Y : String) (t : Int) :
    (∀ s, lookupReg reg X = some s →
      (CancelHandler reg X t).1 = cancelFoundResp X
      ∧ (cancelFoundResp X).status = 200
      ∧ lookupReg (CancelHandler reg X t).2 X = some (invokeCancel s t)
      ∧ (∃ t0, invokeCancel s t = some t0 ∧
          ∀ p : Ctx, ∃ tf, doneAt (Ctx.withCancel p (some t0)) = some tf ∧ tf ≤ t0))
    ∧ (lookupReg reg Y = none →
      (CancelHandler reg Y t).1 = cancelNotFoundResp Y
      ∧ (cancelNotFoundResp Y).status = 404
      ∧ (CancelHandler reg Y t).2 = reg) := by
  constructor
  · intro s hs
    have hfound : CancelHandler reg X t
        = (cancelFoundResp X, fireSlot reg X t) := by
      unfold CancelHandler
      rw [hs]
    refine ⟨by rw [hfound], rfl, ?_, ?_⟩
    · rw [hfound]
      exact lookupReg_fireSlot reg X t s hs
    · cases s with
      | none => exact ⟨t, rfl, fun p => withCancel_some_fires p t⟩
      | some t0 => exact ⟨t0, rfl, fun p => withCancel_some_fires p t0⟩
  · intro hn
    have hnf : CancelHandler reg Y t = (cancelNotFoundResp Y, reg) := by
      unfold CancelHandler
      rw [hn]
    exact ⟨by rw [hnf], rfl, by rw [hnf]⟩

/-- Witness for C5: registry holding `req-1`, canceling `req-1` (found,
slot fired at 7) and `req-2` (not found, registry unchanged). -/
theorem cancel_by_id_witness :
    (CancelHandler [("req-1", none)] "req-1" 7).1 = cancelFoundResp "req-1"
    ∧ lookupReg (CancelHandler [("req-1", none)] "req-1" 7).2 "req-1"
        = some (some 7)
    ∧ (CancelHandler [("req-1", none)] "req-2" 7).2 = [("req-1", none)] := by
  have h1 := (cancel_by_id [("req-1", none)] "req-1" "req-2" 7).1 none (by decide)
  have h2 := (cancel_by_id [("req-1", none)] "req-1" "req-2" 7).2 (by decide)
  exact ⟨h1.1, h1.2.2.1, h2.2.2⟩

/-- Claim C4 (code evaluated at the failing scenario): threading the
`activeRequests` registry through `demo.ProcessHandler` leaves it exactly
as given on every exit path — the handler never inserts (nor removes) an
entry for the request, so starting from the empty registry no identifier
is ever registered and `CancelHandler` can never find an in-flight
request. -/
theorem process_handler_never_registers (reg : Registry) (parent : Ctx)
    (now : Int) (timeout : Option Int) (wt ot : Pick) :
    (demoProcessHandlerReg reg parent now timeout wt ot).2 = reg
    ∧ (∀ rid : String,
        lookupReg (demoProcessHandlerReg [] parent now timeout wt ot).2 rid
          = none) := by
  have key : ∀ r : Registry, (demoProcessHandlerReg r parent now timeout wt ot).2 = r := by
    intro r
    unfold demoProcessHandlerReg
    cases timeout with
    | none => rfl
    | some d =>
      dsimp only
      rcases select2 (demoWorkReady parent now d wt)
          (doneAt (timeoutCtx parent now d)) ot with _ | ⟨pk, tm⟩
      · rfl
      · cases pk <;> rfl
  refine ⟨key reg, ?_⟩
  intro rid
  rw [key []]
  rfl

/-- Claim C9: the process-package worker sends unconditionally at
`now + 5` without observing the context; whenever the handler's reply is
not the success reply (it took the `ctx.Done()` branch, so no receiver
remains on the unbuffered channel), the worker goroutine blocks forever
on its send and never terminates. -/
theorem proc_worker_leaks_on_timeout (parent : Ctx) (now d : Int) (ot : Pick) :
    procWorkerSendAt now = some (now + 5)
    ∧ (∀ tc, doneAt (timeoutCtx parent now d) = some tc → tc < now + 5 →
        (procProcessHandler parent now (some d) ot).1
          = some (procDoneResp (ctxErr (timeoutCtx parent now d)))
        ∧ (procProcessHandler parent now (some d) ot).2 = false)
    ∧ (∀ r : Response, (procProcessHandler parent now (some d) ot).1 = some r →
        r ≠ procSuccessResp →
        (procProcessHandler parent now (some d) ot).2 = false) := by
  refine ⟨rfl, ?_, ?_⟩
  · intro tc htc hlt
    have hh : procProcessHandler parent now (some d) ot
        = (some (procDoneResp (ctxErr (timeoutCtx parent now d))), false) := by
      unfold procProcessHandler procWorkerSendAt
      dsimp only
      rw [htc]
      simp only [select2]
      rw [if_neg (show ¬ now + 5 < tc by omega), if_pos hlt]
    rw [hh]
    exact ⟨rfl, rfl⟩
  · intro r hr hne
    unfold procProcessHandler procWorkerSendAt at hr ⊢
    dsimp only at hr ⊢
    rcases hsel : select2 (some (now + 5)) (doneAt (timeoutCtx parent now d)) ot
        with _ | ⟨pk, tm⟩
    · rfl
    · cases pk with
      | left =>
        rw [hsel] at hr
        obtain rfl : procSuccessResp = r := Option.some_injective _ hr
        exact absurd rfl hne
      | right => rfl

/-- Witness for C9: a 2-second timeout beats the 5-second worker; the
handler takes the done branch and the worker goroutine is stuck. -/
theorem proc_worker_leaks_on_timeout_witness :
    (procProcessHandler Ctx.background 0 (some 2) Pick.left).1
      = some procTimeoutResp
    ∧ (procProcessHandler Ctx.background 0 (some 2) Pick.left).2 = false := by
  have h := (proc_worker_leaks_on_timeout Ctx.background 0 2 Pick.left).2.1
    2 (by decide) (by decide)
  exact ⟨by rw [h.1]; decide, h.2⟩

/-! ## select2 lemmas and claims C2, C3 -/

theorem select2_left_of_lt (tl tr : Int) (tie : Pick) (h : tl < tr) :
    select2 (some tl) (some tr) tie = some (Pick.left, tl) := by
  simp only [select2]
  rw [if_pos h]

theorem select2_right_of_lt (tl tr : Int) (tie : Pick) (h : tr < tl) :
    select2 (some tl) (some tr) tie = some (Pick.right, tr) := by
  simp only [select2]
  rw [if_neg (show ¬ tl < tr by omega), if_pos h]

theorem select2_tie (tl : Int) (tie : Pick) :
    select2 (some tl) (some tl) tie = some (tie, tl) := by
  simp only [select2]
  rw [if_neg (show ¬ tl < tl by omega), if_neg (show ¬ tl < tl by omega)]

/-- Claim C2: in both bounded-run handlers, with a parsed timeout and the
derived context firing at `tc`: if the work's channel is ready strictly
first the handler replies success with the work's result; if the context
fires strictly first (or the demo worker never sends) the handler replies
with the failure derived from the context's reason — the 408/504 timeout
reply on `DeadlineExceeded` and the canceled-style reply on any other
reason; and every run surfaces exactly one of these pairwise-distinct
outcomes. -/
theorem run_bounded_exactly_one_outcome (parent : Ctx) (now d tc : Int)
    (wt ot : Pick) (hc : doneAt (timeoutCtx parent now d) = some tc) :
    (∀ tw, demoWorkReady parent now d wt = some tw → tw < tc →
        demoProcessHandler parent now (some d) wt ot = some demoSuccessResp)
    ∧ (∀ tw, demoWorkReady parent now d wt = some tw → tc < tw →
        demoProcessHandler parent now (some d) wt ot
          = some (demoDoneResp (ctxErr (timeoutCtx parent now d))))
    ∧ (demoWorkReady parent now d wt = none →
        demoProcessHandler parent now (some d) wt ot
          = some (demoDoneResp (ctxErr (timeoutCtx parent now d))))
    ∧ (ctxErr (timeoutCtx parent now d) = some Reason.deadlineExceeded →
        demoDoneResp (ctxErr (timeoutCtx parent now d)) = demoTimeoutResp
        ∧ procDoneResp (ctxErr (timeoutCtx parent now d)) = procTimeoutResp)
    ∧ (ctxErr (timeoutCtx parent now d) = some Reason.canceled →
        demoDoneResp (ctxErr (timeoutCtx parent now d)) = demoCanceledResp
        ∧ procDoneResp (ctxErr (timeoutCtx parent now d))
            = procCanceledResp "context canceled")
    ∧ (∃ r, demoProcessHandler parent now (some d) wt ot = some r
        ∧ (r = demoSuccessResp ∨ r = demoTimeoutResp ∨ r = demoCanceledResp))
    ∧ (demoSuccessResp ≠ demoTimeoutResp ∧ demoSuccessResp ≠ demoCanceledResp
        ∧ demoTimeoutResp ≠ demoCanceledResp)
    ∧ (now + 5 < tc →
        (procProcessHandler parent now (some d) ot).1 = some procSuccessResp)
    ∧ (tc < now + 5 →
        (procProcessHandler parent now (some d) ot).1
          = some (procDoneResp (ctxErr (timeoutCtx parent now d))))
    ∧ (∃ r, (procProcessHandler parent now (some d) ot).1 = some r
        ∧ (r = procSuccessResp ∨ r = procTimeoutResp
            ∨ r = procCanceledResp
                (errString (ctxErr (timeoutCtx parent now d))))) := by
  have hdemo : ∀ w : Option Int, demoWorkReady parent now d wt = w →
      demoProcessHandler parent now (some d) wt ot =
      (match select2 w (some tc) ot with
       | some (Pick.left, _) => some demoSuccessResp
       | some (Pick.right, _) =>
           some (demoDoneResp (ctxErr (timeoutCtx parent now d)))
       | none => none) := by
    intro w hw
    unfold demoProcessHandler
    dsimp only
    rw [hw, hc]
  have hproc : procProcessHandler parent now (some d) ot =
      (match select2 (some (now + 5)) (some tc) ot with
       | some (Pick.left, _) => (some procSuccessResp, true)
       | some (Pick.right, _) =>
           (some (procDoneResp (ctxErr (timeoutCtx parent now d))), false)
       | none => (none, false)) := by
    unfold procProcessHandler procWorkerSendAt
    dsimp only
    rw [hc]
  have hdd : demoDoneResp (ctxErr (timeoutCtx parent now d)) = demoTimeoutResp
      ∨ demoDoneResp (ctxErr (timeoutCtx parent now d)) = demoCanceledResp := by
    unfold demoDoneResp
    by_cases he : ctxErr (timeoutCtx parent now d) = some Reason.deadlineExceeded
    · rw [if_pos he]
      exact Or.inl rfl
    · rw [if_neg he]
      exact Or.inr rfl
  have hpd : procDoneResp (ctxErr (timeoutCtx parent now d)) = procTimeoutResp
      ∨ procDoneResp (ctxErr (timeoutCtx parent now d))
          = procCanceledResp (errString (ctxErr (timeoutCtx parent now d))) := by
    unfold procDoneResp
    by_cases he : ctxErr (timeoutCtx parent now d) = some Reason.deadlineExceeded
    · rw [if_pos he]
      exact Or.inl rfl
    · rw [if_neg he]
      exact Or.inr rfl
  refine ⟨?_, ?_, ?_, ?_, ?_, ?_, ⟨by decide, by decide, by decide⟩, ?_, ?_, ?_⟩
  · intro tw hw hlt
    rw [hdemo (some tw) hw, select2_left_of_lt tw tc ot hlt]
  · intro tw hw hlt
    rw [hdemo (some tw) hw, select2_right_of_lt tw tc ot hlt]
  · intro hw
    rw [hdemo none hw]
    rfl
  · intro he
    refine ⟨?_, ?_⟩
    · unfold demoDoneResp
      rw [if_pos he]
    · unfold procDoneResp
      rw [if_pos he]
  · intro he
    have hne : ctxErr (timeoutCtx parent now d) ≠ some Reason.deadlineExceeded := by
      rw [he]
      decide
    refine ⟨?_, ?_⟩
    · unfold demoDoneResp
      rw [if_neg hne]
    · unfold procDoneResp
      rw [if_neg hne, he]
      rfl
  · rcases hw : demoWorkReady parent now d wt with _ | tw
    · refine ⟨demoDoneResp (ctxErr (timeoutCtx parent now d)),
        by rw [hdemo none hw]; rfl, ?_⟩
      rcases hdd with h | h
      · rw [h]
        exact Or.inr (Or.inl rfl)
      · rw [h]
        exact Or.inr (Or.inr rfl)
    · rcases lt_trichotomy tw tc with hlt | heq | hgt
      · exact ⟨demoSuccessResp,
          by rw [hdemo (some tw) hw, select2_left_of_lt tw tc ot hlt],
          Or.inl rfl⟩
      · subst heq
        cases ot with
        | left =>
          exact ⟨demoSuccessResp,
            by rw [hdemo (some tw) hw, select2_tie tw Pick.left], Or.inl rfl⟩
        | right =>
          refine ⟨demoDoneResp (ctxErr (timeoutCtx parent now d)),
            by rw [hdemo (some tw) hw, select2_tie tw Pick.right], ?_⟩
          rcases hdd with h | h
          · rw [h]
            exact Or.inr (Or.inl rfl)
          · rw [h]
            exact Or.inr (Or.inr rfl)
      · refine ⟨demoDoneResp (ctxErr (timeoutCtx parent now d)),
          by rw [hdemo (some tw) hw, select2_right_of_lt tw tc ot hgt], ?_⟩
        rcases hdd with h | h
        · rw [h]
          exact Or.inr (Or.inl rfl)
        · rw [h]
          exact Or.inr (Or.inr rfl)
  · intro hlt
    rw [hproc, select2_left_of_lt (now + 5) tc ot hlt]
  · intro hlt
    rw [hproc, select2_right_of_lt (now + 5) tc ot hlt]
  · rcases lt_trichotomy (now + 5) tc with hlt | heq | hgt
    · exact ⟨procSuccessResp,
        by rw [hproc, select2_left_of_lt (now + 5) tc ot hlt], Or.inl rfl⟩
    · subst heq
      cases ot with
      | left =>
        exact ⟨procSuccessResp,
          by rw [hproc, select2_tie (now + 5) Pick.left], Or.inl rfl⟩
      | right =>
        refine ⟨procDoneResp (ctxErr (timeoutCtx parent now d)),
          by rw [hproc, select2_tie (now + 5) Pick.right], ?_⟩
        rcases hpd with h | h
        · rw [h]
          exact Or.inr (Or.inl rfl)
        · rw [h]
          exact Or.inr (Or.inr rfl)
    · refine ⟨procDoneResp (ctxErr (timeoutCtx parent now d)),
        by rw [hproc, select2_right_of_lt (now + 5) tc ot hgt], ?_⟩
      rcases hpd with h | h
      · rw [h]
        exact Or.inr (Or.inl rfl)
      · rw [h]
        exact Or.inr (Or.inr rfl)

/-- Witness for C2: 10-second timeout, work ready at 5, success reply. -/
theorem run_bounded_exactly_one_outcome_witness :
    demoProcessHandler Ctx.background 0 (some 10) Pick.left Pick.left
      = some demoSuccessResp :=
  (run_bounded_exactly_one_outcome Ctx.background 0 10 10 Pick.left Pick.left
    (by decide)).1 5 (by decide) (by decide)

/-- Claim C3 counterexample: with a 5-second timeout the worker's
completion and the context's done channel become ready in the same
evaluation step (both at time 5); when the runtime's arbitrary choice
among the simultaneously-ready `select` cases falls on the done case, the
handler reports the 408 timeout reply, not success — so "success wins
every simultaneous arrival" does not hold of the code. -/
theorem tie_break_not_guaranteed :
    demoWorkReady Ctx.background 0 5 Pick.right = some 5
    ∧ doneAt (timeoutCtx Ctx.background 0 5) = some 5
    ∧ demoProcessHandler Ctx.background 0 (some 5) Pick.right Pick.right
        = some demoTimeoutResp
    ∧ demoTimeoutResp ≠ demoSuccessResp := by
  refine ⟨by decide, by decide, by decide, by decide⟩

/-- Claim C3 amended: when the work's completion and the context's done
channel become ready in the same evaluation step, the reported branch
follows the runtime's arbitrary choice among the ready `select` cases;
under the adopted completion-wins policy — the choice favoring the result
channel — the success reply is reported (in both handlers). -/
theorem tie_break_completion_wins (parent : Ctx) (now d t : Int) (wt : Pick)
    (hw : demoWorkReady parent now d wt = some t)
    (hc : doneAt (timeoutCtx parent now d) = some t) :
    demoProcessHandler parent now (some d) wt Pick.left = some demoSuccessResp
    ∧ (t = now + 5 →
        (procProcessHandler parent now (some d) Pick.left).1
          = some procSuccessResp) := by
  constructor
  · unfold demoProcessHandler
    dsimp only
    rw [hw, hc, select2_tie t Pick.left]
  · intro ht
    subst ht
    unfold procProcessHandler procWorkerSendAt
    dsimp only
    rw [hc, select2_tie (now + 5) Pick.left]

/-- Witness for the amended C3 at the concrete simultaneous arrival. -/
theorem tie_break_completion_wins_witness :
    demoProcessHandler Ctx.background 0 (some 5) Pick.right Pick.left
      = some demoSuccessResp :=
  (tie_break_completion_wins Ctx.background 0 5 5 Pick.right
    (by decide) (by decide)).1
